import Mathlib

/-!
Verification development for the `ytdlp-extract.py` script: a shallow
embedding of its format-normalization pipeline, cookie adapter, and
process entry point, together with theorems checking the specification's
claims against the embedded code.

Conventions of the embedding:
* Python `dict.get` over possibly-absent fields is modelled with `Option`.
  For the two codec fields the script calls `f.get('vcodec', 'none')`,
  where an absent key and an explicit `null` value behave differently, so
  those two fields are `Option (Option String)` (outer `none` = key absent,
  inner `none` = key present with value `null`).
* Python truthiness of numbers (`if height:`, `not filesize`) is modelled
  by explicit `…Truthy` helpers: `none` and zero are falsy.
* Python numeric values are embedded as `Rat` where fractional values can
  occur (bitrates, duration, expiration timestamps) and as `Int` where the
  script only ever formats or compares them (height, fps, byte counts);
  Python `int(x)` truncates toward zero, which is `Int.tdiv` on `num/den`.
* Python's stable ascending `list.sort(key=...)` is `List.mergeSort` with
  the lexicographic key order.
-/

/-- Python `int(q)`: truncation toward zero of a rational. -/
def pyTrunc (q : Rat) : Int := q.num.tdiv q.den

/-- Floor of a rational, used only by the spec-side definitions that read
the specification's word "floor" literally. -/
def ratFloor (q : Rat) : Int := q.num.fdiv q.den

/-- Python truthiness of an optional integer: `None` and `0` are falsy. -/
def optIntTruthy : Option Int → Bool
  | none => false
  | some n => n != 0

/-- Python truthiness of an optional rational: `None` and `0` are falsy. -/
def optRatTruthy : Option Rat → Bool
  | none => false
  | some q => q != 0

/-- Python truthiness of an optional string: `None` and `""` are falsy. -/
def optStrTruthy : Option String → Bool
  | none => false
  | some s => s != ""

/-- Python `d.get(key, default)` for a field that may be absent (outer
`none`) or present with value `null` (inner `none`). -/
def pyDictGet (v : Option (Option String)) (dflt : String) : Option String :=
  match v with
  | none => some dflt
  | some x => x

/-- Python `s.startswith(p)`, on the character lists of the strings. -/
def strStartsWith (s p : String) : Bool := p.data.isPrefixOf s.data

/-- Python `needle in hay` substring test, on the character lists. -/
def pyInStr (needle hay : String) : Bool := go needle.data hay.data where
  go (n : List Char) : List Char → Bool
    | [] => n.isEmpty
    | c :: t => n.isPrefixOf (c :: t) || go n t

/-- One raw format descriptor as returned by the external extraction call
(`info['formats'][i]`).  Field names follow the yt-dlp keys the script
reads. -/
structure RawFormat where
  format_id : Option String
  url : Option String
  vcodec : Option (Option String)
  acodec : Option (Option String)
  height : Option Int
  width : Option Int
  fps : Option Int
  abr : Option Rat
  tbr : Option Rat
  filesize : Option Int
  filesize_approx : Option Int
  ext : Option String
  format_note : Option String
deriving DecidableEq

/-- A raw descriptor with every field absent; concrete examples are built
by structure update from it. -/
def blankRaw : RawFormat :=
  { format_id := none, url := none, vcodec := none, acodec := none,
    height := none, width := none, fps := none, abr := none, tbr := none,
    filesize := none, filesize_approx := none, ext := none,
    format_note := none }

/-- One normalized output record, the dict appended to `formats`. -/
structure NormalizedFormat where
  format_id : Option String
  quality : Option String
  ext : Option String
  filesize : Option Int
  url : String
  type : String
  height : Option Int
  width : Option Int
  fps : Option Int
  vcodec : Option String
  acodec : Option String
  abr : Option Rat
  tbr : Option Rat
deriving DecidableEq

/-- The `vcodec`/`acodec` classification chain of the script:
`some "video"` / `some "audio"` to append a record of that type,
`none` for the bare `continue` (both codecs are the sentinel). -/
def classify (v a : Option String) : Option String :=
  if v ≠ some "none" ∧ a ≠ some "none" then some "video"
  else if v ≠ some "none" then some "video"
  else if a ≠ some "none" then some "audio"
  else none

/-- The `quality += f'{fps}'` suffix: appended only when `fps` is truthy
and exceeds 30. -/
def fpsSuffix : Option Int → String
  | none => ""
  | some n => if n != 0 && decide (n > 30) then toString n else ""

/-- The quality-label chain of the script (`if height: … elif abr: …
else: format_note or fid`). -/
def buildQuality (f : RawFormat) : Option String :=
  if optIntTruthy f.height then
    some (toString (f.height.getD 0) ++ "p" ++ fpsSuffix f.fps)
  else if optRatTruthy f.abr then
    some (toString (pyTrunc (f.abr.getD 0)) ++ "kbps")
  else if optStrTruthy f.format_note then f.format_note
  else f.format_id

/-- The filesize chain of the script: exact `filesize` if truthy, else
`int(tbr * 1000 * duration / 8)` when `tbr` and `duration` are truthy,
else `filesize_approx` whenever the running value is still falsy. -/
def deriveFilesize (duration : Rat) (f : RawFormat) : Option Int :=
  let s1 := f.filesize
  let s2 :=
    if !optIntTruthy s1 && optRatTruthy f.tbr && (duration != 0) then
      some (pyTrunc (f.tbr.getD 0 * 1000 * duration / 8))
    else s1
  if !optIntTruthy s2 then f.filesize_approx else s2

/-- The record the script appends for a surviving descriptor `f` of
classified type `t`. -/
def mkNormalized (duration : Rat) (f : RawFormat) (t : String) : NormalizedFormat :=
  let v := pyDictGet f.vcodec "none"
  let a := pyDictGet f.acodec "none"
  { format_id := f.format_id
    quality := buildQuality f
    ext := f.ext
    filesize := deriveFilesize duration f
    url := f.url.getD ""
    type := t
    height := f.height
    width := f.width
    fps := f.fps
    vcodec := if v = some "none" then none else v
    acodec := if a = some "none" then none else a
    abr := f.abr
    tbr := f.tbr }

/-- The normalization loop over `raw_formats`, with `seen` the set of
already-seen `format_id` values (a descriptor without a URL is skipped
before the dedup check; a deduplicated descriptor is recorded in `seen`
before the codec classification, even when it is then dropped). -/
def normalizeLoop (duration : Rat) : List RawFormat → List (Option String) → List NormalizedFormat
  | [], _ => []
  | f :: rest, seen =>
    if optStrTruthy f.url then
      if f.format_id ∈ seen then normalizeLoop duration rest seen
      else
        match classify (pyDictGet f.vcodec "none") (pyDictGet f.acodec "none") with
        | some t =>
            mkNormalized duration f t ::
              normalizeLoop duration rest (f.format_id :: seen)
        | none => normalizeLoop duration rest (f.format_id :: seen)
    else normalizeLoop duration rest seen

/-- The list of normalized records before sorting. -/
def normalizeFormats (duration : Rat) (raw : List RawFormat) : List NormalizedFormat :=
  normalizeLoop duration raw []

/-- `x['type'] != 'video' or x['acodec'] is None`: the primary sort key
(`false` for combined audio+video records, which sort first). -/
def notCombined (x : NormalizedFormat) : Bool :=
  (x.type != "video") || (x.acodec == none)

/-- A combined audio+video record in the claims' wording. -/
def isCombined (x : NormalizedFormat) : Bool :=
  (x.type == "video") && !(x.acodec == none)

/-- The four-component sort key of the script (ascending lexicographic
order; negations implement the descending numeric keys; the leading
Python bool is embedded as its integer value, `False < True`). -/
def boolToInt : Bool → Int
  | false => 0
  | true => 1

def sortKey (x : NormalizedFormat) : Int × Int × Int × Int :=
  (boolToInt (notCombined x),
    -(x.height.getD 0), -(x.fps.getD 0), -(x.filesize.getD 0))

/-- Lexicographic `≤` on the sort key. -/
def lexLE (a b : Int × Int × Int × Int) : Bool :=
  decide (a.1 < b.1 ∨ (a.1 = b.1 ∧
    (a.2.1 < b.2.1 ∨ (a.2.1 = b.2.1 ∧
      (a.2.2.1 < b.2.2.1 ∨ (a.2.2.1 = b.2.2.1 ∧ a.2.2.2 ≤ b.2.2.2))))))

/-- Record comparison used by the sort. -/
def keyLE (x y : NormalizedFormat) : Bool := lexLE (sortKey x) (sortKey y)

/-- The full format pipeline: normalize, then the stable ascending sort on
the four-component key. -/
def extractFormats (duration : Rat) (raw : List RawFormat) : List NormalizedFormat :=
  (normalizeFormats duration raw).mergeSort keyLE

/-- One entry of a structured (JSON-array) cookie export.  `none` models
an absent key; `c.get(key, default)` is `Option.getD`. -/
structure CookieEntry where
  domain : Option String
  path : Option String
  secure : Option Bool
  expirationDate : Option Rat
  name : Option String
  value : Option String
deriving DecidableEq

/-- The entry's domain after the subdomain adjustment: prefixed with `"."`
when truthy and not already dot-prefixed. -/
def adjustedDomain (c : CookieEntry) : String :=
  let d := c.domain.getD ""
  if d != "" && !strStartsWith d "." then "." ++ d else d

/-- The Netscape `flag` field: `TRUE` iff the adjusted domain starts with
a dot. -/
def domainFlag (c : CookieEntry) : String :=
  if strStartsWith (adjustedDomain c) "." then "TRUE" else "FALSE"

/-- The Netscape `secure` field from the entry's flag, default false. -/
def secureFlag (c : CookieEntry) : String :=
  if c.secure.getD false then "TRUE" else "FALSE"

/-- The `expires` field: `str(int(c.get('expirationDate', 0)))`. -/
def expiresField (c : CookieEntry) : String :=
  toString (pyTrunc (c.expirationDate.getD 0))

/-- The flat tab-separated record for one entry, or `none` when the entry
is missing a (truthy) name or value. -/
def cookieLine (c : CookieEntry) : Option String :=
  if optStrTruthy c.name && optStrTruthy c.value then
    some (adjustedDomain c ++ "\t" ++ domainFlag c ++ "\t" ++ c.path.getD "/" ++
      "\t" ++ secureFlag c ++ "\t" ++ expiresField c ++ "\t" ++
      c.name.getD "" ++ "\t" ++ c.value.getD "")
  else none

/-- `parse_json_cookies_to_netscape`: header line plus one record per
entry that has a name and a value. -/
def parse_json_cookies_to_netscape (json_cookies : List CookieEntry) : String :=
  String.intercalate "\n"
    ("# Netscape HTTP Cookie File" :: json_cookies.filterMap cookieLine)

/-- The domain filter applied to a structured cookie export:
`any(d in c.get('domain', '') for d in ['youtube.com', 'google.com'])`. -/
def isYtCookie (c : CookieEntry) : Bool :=
  pyInStr "youtube.com" (c.domain.getD "") || pyInStr "google.com" (c.domain.getD "")

/-- The filtered structured cookie list. -/
def filterYtCookies (cs : List CookieEntry) : List CookieEntry :=
  cs.filter isYtCookie

/-- What the cookie-handling step of `extract` finds: no usable file, a
failure while reading it, structured JSON content (parsed entries),
structured content that fails to parse, or flat Netscape content (whose
path is passed through).  The three failure constructors model the
exceptions the `try` block can raise. -/
inductive CookieSource where
  | noFile
  | readError
  | malformedJson
  | otherCookieFailure
  | jsonContent (cs : List CookieEntry)
  | netscapeContent (path : String)
deriving DecidableEq

/-- The cookie configuration handed to the extraction call: a temp file
freshly written with the given content, or the original file's path. -/
inductive CookieConfig where
  | fromTempFile (content : String)
  | fromPath (path : String)
deriving DecidableEq

/-- The cookie-handling step: every failure is swallowed (no
configuration), JSON content is filtered and converted (no configuration
when nothing survives the filter), Netscape content is passed through. -/
def setupCookies : CookieSource → Option CookieConfig
  | CookieSource.noFile => none
  | CookieSource.readError => none
  | CookieSource.malformedJson => none
  | CookieSource.otherCookieFailure => none
  | CookieSource.jsonContent cs =>
      let yt := filterYtCookies cs
      if yt.isEmpty then none
      else some (CookieConfig.fromTempFile (parse_json_cookies_to_netscape yt))
  | CookieSource.netscapeContent p => some (CookieConfig.fromPath p)

/-- Top-level metadata of the external call's `info` dict (the parts the
script reads). -/
structure MediaInfo where
  id : Option String
  title : Option String
  description : Option String
  uploader : Option String
  channel : Option String
  duration : Option Rat
  thumbnail : Option String
  view_count : Option Int
  like_count : Option Int
  formats : List RawFormat
deriving DecidableEq

/-- Outcome of the black-box `ydl.extract_info` call: a result, a
`DownloadError`, or any other exception. -/
inductive ExtCallOutcome where
  | ok (info : MediaInfo)
  | downloadError (msg : String)
  | genericError (msg : String)
deriving DecidableEq

/-- The `data` object of a successful result. -/
structure SuccessData where
  id : Option String
  title : Option String
  description : Option String
  author : Option String
  duration : Option Rat
  thumbnail : Option String
  view_count : Option Int
  like_count : Option Int
  formats : List NormalizedFormat
deriving DecidableEq

/-- The JSON document the script prints: `{"success": true, "data": …}`
or `{"success": false, "error": …}`. -/
inductive ExtractionResult where
  | success (data : SuccessData)
  | failure (error : String)
deriving DecidableEq

/-- Shaping of a successful `info` into the output `data` object. -/
def shapeData (info : MediaInfo) : SuccessData :=
  { id := info.id
    title := info.title
    description := info.description
    author := if optStrTruthy info.uploader then info.uploader else info.channel
    duration := info.duration
    thumbnail := info.thumbnail
    view_count := info.view_count
    like_count := info.like_count
    formats := extractFormats (info.duration.getD 0) info.formats }

/-- Observable trace of one `extract` invocation: its result and the
lifecycle of the optional temporary cookie file. -/
structure RunTrace where
  result : ExtractionResult
  tempCreated : Bool
  cleanupAttempted : Bool
  tempOnDiskAfter : Bool
deriving DecidableEq

/-- `extract(url, cookie_file)`: cookie setup, the guarded extraction
call, and the `finally` block that unlinks the temp cookie file when it
still exists (`externallyRemoved` models a temp file that is already gone
at cleanup time, which the script tolerates). -/
def extract (src : CookieSource) (call : ExtCallOutcome)
    (externallyRemoved : Bool) : RunTrace :=
  let cfg := setupCookies src
  let created :=
    match cfg with
    | some (CookieConfig.fromTempFile _) => true
    | _ => false
  let result :=
    match call with
    | ExtCallOutcome.ok info => ExtractionResult.success (shapeData info)
    | ExtCallOutcome.downloadError m => ExtractionResult.failure m
    | ExtCallOutcome.genericError m => ExtractionResult.failure m
  let onDisk := created && !externallyRemoved
  let attempted := created && onDisk
  { result := result
    tempCreated := created
    cleanupAttempted := attempted
    tempOnDiskAfter := onDisk && !attempted }

/-- The `__main__` block: usage check, one printed JSON document, and the
process exit status.  Returns (printed documents, exit code, whether the
extraction call was attempted). -/
def mainProgram (argv : List String) (src : CookieSource)
    (call : ExtCallOutcome) : List ExtractionResult × Nat × Bool :=
  if argv.length < 2 then
    ([ExtractionResult.failure "URL required"], 1, false)
  else
    let r := (extract src call false).result
    ([r],
      (match r with
       | ExtractionResult.success _ => 0
       | ExtractionResult.failure _ => 1),
      true)

/-! ### Spec-side definitions and concrete example descriptors -/

/-- The filesize fallback chain as the claim words it ("first non-null
value wins"): the exact `filesize` field if non-null; otherwise
`floor(tbr * 1000 * duration / 8)` whenever `tbr` is non-null; otherwise
the approximate filesize field; otherwise null.  Spec-side definition,
for comparison with `deriveFilesize`. -/
def specFilesize (duration : Rat) (f : RawFormat) : Option Int :=
  match f.filesize with
  | some n => some n
  | none =>
    match f.tbr with
    | some t => some (ratFloor (t * 1000 * duration / 8))
    | none => f.filesize_approx

/-- The quality label as the claim words it (presence, not truthiness:
"if height is present…", "else if average bitrate is present…", with
`floor(abr)`).  Spec-side definition, for comparison with
`buildQuality`. -/
def specQuality (f : RawFormat) : Option String :=
  match f.height with
  | some h =>
    some (toString h ++ "p" ++
      (match f.fps with
       | some n => if n > 30 then toString n else ""
       | none => ""))
  | none =>
    match f.abr with
    | some q => some (toString (ratFloor q) ++ "kbps")
    | none =>
      match f.format_note with
      | some s => some s
      | none => f.format_id

/-- Combined audio+video descriptor. -/
def exCombined : RawFormat :=
  { blankRaw with
    format_id := some "22"
    url := some "https://cdn/22"
    vcodec := some (some "avc1")
    acodec := some (some "mp4a")
    height := some 720 }

/-- Video-only descriptor, 1080p at 60 fps. -/
def exVideoOnly : RawFormat :=
  { blankRaw with
    format_id := some "137"
    url := some "https://cdn/137"
    vcodec := some (some "vp9")
    height := some 1080
    fps := some 60 }

/-- Audio-only descriptor with sentinel video codec. -/
def exAudio : RawFormat :=
  { blankRaw with
    format_id := some "251"
    url := some "https://cdn/251"
    vcodec := some (some "none")
    acodec := some (some "opus")
    abr := some 128.7 }

/-- Descriptor with no exact or approximate filesize, `tbr = 1000`. -/
def exTbrOnly : RawFormat :=
  { blankRaw with
    format_id := some "f1"
    url := some "https://cdn/f1"
    vcodec := some (some "vp9")
    tbr := some 1000 }

/-- Descriptor whose exact filesize is present but zero (`tbr = 1000`). -/
def cexZeroFilesize : RawFormat :=
  { blankRaw with
    format_id := some "z0"
    url := some "https://cdn/z0"
    vcodec := some (some "vp9")
    tbr := some 1000
    filesize := some 0 }

/-- Descriptor with a `format_id` but no URL. -/
def cexDupNoUrl : RawFormat :=
  { blankRaw with
    format_id := some "a" }

/-- URL-bearing descriptor sharing `cexDupNoUrl`'s `format_id`. -/
def cexDupWithUrl : RawFormat :=
  { blankRaw with
    format_id := some "a"
    url := some "https://cdn/a2"
    vcodec := some (some "vp9") }

/-- URL-bearing duplicate pair used as witness input. -/
def exDupFirst : RawFormat :=
  { blankRaw with
    format_id := some "w"
    url := some "https://cdn/w1"
    vcodec := some (some "vp9")
    height := some 360 }

/-- Second element of the witness duplicate pair. -/
def exDupSecond : RawFormat :=
  { blankRaw with
    format_id := some "w"
    url := some "https://cdn/w2"
    vcodec := some (some "av01")
    height := some 1080 }

/-- Descriptor whose height is present but zero, with `abr = 128.7`. -/
def cexZeroHeight : RawFormat :=
  { blankRaw with
    format_id := some "h0"
    url := some "https://cdn/h0"
    vcodec := some (some "vp9")
    height := some 0
    abr := some 128.7 }

/-- URL-bearing descriptor with no `format_id` and both codecs absent
(classification drops it, but it still enters the seen set). -/
def cexNoFidNoCodec : RawFormat :=
  { blankRaw with
    url := some "https://cdn/x1" }

/-- URL-bearing descriptor with no `format_id` and a video codec. -/
def cexNoFidVideo : RawFormat :=
  { blankRaw with
    url := some "https://cdn/x2"
    vcodec := some (some "vp9") }

/-- A structured cookie entry on `youtube.com` without a leading dot. -/
def exYtEntry : CookieEntry :=
  { domain := some "youtube.com"
    path := none
    secure := some true
    expirationDate := some 1700000000.5
    name := some "SID"
    value := some "abc" }

/-- A structured cookie entry on an unrelated domain. -/
def exOtherEntry : CookieEntry :=
  { domain := some "example.com"
    path := some "/x"
    secure := none
    expirationDate := none
    name := some "n"
    value := some "v" }

/-- The record the pipeline emits for `exTbrOnly` at duration 8. -/
def recTbrOnly : NormalizedFormat := mkNormalized 8 exTbrOnly "video"

/-- The record the pipeline emits for `exVideoOnly`. -/
def recVideoOnly : NormalizedFormat := mkNormalized 0 exVideoOnly "video"

/-! ### Order facts about the sort key -/

theorem lexLE_refl (a : Int × Int × Int × Int) : lexLE a a = true := by
  simp [lexLE]

theorem lexLE_trans {a b c : Int × Int × Int × Int}
    (h1 : lexLE a b = true) (h2 : lexLE b c = true) : lexLE a c = true := by
  simp only [lexLE, decide_eq_true_eq] at h1 h2 ⊢
  omega

theorem lexLE_total (a b : Int × Int × Int × Int) :
    (lexLE a b || lexLE b a) = true := by
  simp only [lexLE, Bool.or_eq_true, decide_eq_true_eq]
  omega

theorem keyLE_trans (x y z : NormalizedFormat)
    (h1 : keyLE x y = true) (h2 : keyLE y z = true) : keyLE x z = true :=
  lexLE_trans h1 h2

theorem keyLE_total (x y : NormalizedFormat) : (keyLE x y || keyLE y x) = true :=
  lexLE_total _ _

theorem keyLE_of_sortKey_eq {x y : NormalizedFormat}
    (h : sortKey x = sortKey y) : keyLE x y = true := by
  unfold keyLE
  rw [h]
  exact lexLE_refl _

theorem notCombined_eq (x : NormalizedFormat) :
    notCombined x = !isCombined x := by
  unfold notCombined isCombined
  cases h1 : (x.type == "video") <;> cases h2 : (x.acodec == none) <;>
    simp [h1, h2, bne]

theorem keyLE_imp {x y : NormalizedFormat} (h : keyLE x y = true) :
    (isCombined y = true → isCombined x = true) ∧
    (isCombined x = isCombined y → y.height.getD 0 ≤ x.height.getD 0) ∧
    (isCombined x = isCombined y → x.height.getD 0 = y.height.getD 0 →
       y.fps.getD 0 ≤ x.fps.getD 0) ∧
    (isCombined x = isCombined y → x.height.getD 0 = y.height.getD 0 →
       x.fps.getD 0 = y.fps.getD 0 → y.filesize.getD 0 ≤ x.filesize.getD 0) := by
  unfold keyLE sortKey at h
  rw [notCombined_eq x, notCombined_eq y] at h
  cases hx : isCombined x <;> cases hy : isCombined y <;>
    rw [hx, hy] at h <;>
    simp only [Bool.not_true, Bool.not_false, boolToInt,
      lexLE, decide_eq_true_eq] at h <;>
    simp <;> omega

/-! ### Structure of the normalization loop -/

/-- The `seen` set after the loop has processed a prefix of the input. -/
def seenAfter : List RawFormat → List (Option String) → List (Option String)
  | [], seen => seen
  | f :: rest, seen =>
    if optStrTruthy f.url then
      if f.format_id ∈ seen then seenAfter rest seen
      else seenAfter rest (f.format_id :: seen)
    else seenAfter rest seen

theorem normalizeLoop_append (duration : Rat) (l1 l2 : List RawFormat) :
    ∀ seen, normalizeLoop duration (l1 ++ l2) seen =
      normalizeLoop duration l1 seen ++
        normalizeLoop duration l2 (seenAfter l1 seen) := by
  induction l1 with
  | nil => intro seen; simp [normalizeLoop, seenAfter]
  | cons f rest ih =>
    intro seen
    by_cases hu : optStrTruthy f.url = true
    · by_cases hs : f.format_id ∈ seen
      · simp [normalizeLoop, seenAfter, hu, hs, ih]
      · cases hcl : classify (pyDictGet f.vcodec "none") (pyDictGet f.acodec "none") <;>
          simp [normalizeLoop, seenAfter, hu, hs, hcl, ih]
    · simp [normalizeLoop, seenAfter, hu, ih]

theorem mem_seenAfter {x : Option String} :
    ∀ (l : List RawFormat) (seen : List (Option String)),
      x ∈ seen → x ∈ seenAfter l seen := by
  intro l
  induction l with
  | nil => intro seen h; simpa [seenAfter] using h
  | cons f rest ih =>
    intro seen h
    by_cases hu : optStrTruthy f.url = true
    · by_cases hs : f.format_id ∈ seen
      · simp only [seenAfter, hu, if_true, hs]
        exact ih seen h
      · simp only [seenAfter, hu, if_true, hs, if_false]
        exact ih _ (List.mem_cons_of_mem _ h)
    · simp only [seenAfter, hu]
      exact ih seen h

theorem notin_seenAfter {x : Option String} :
    ∀ (l : List RawFormat) (seen : List (Option String)),
      x ∉ seen → (∀ g ∈ l, optStrTruthy g.url = true → g.format_id ≠ x) →
      x ∉ seenAfter l seen := by
  intro l
  induction l with
  | nil => intro seen hx _; simpa [seenAfter] using hx
  | cons g rest ih =>
    intro seen hx hall
    by_cases hu : optStrTruthy g.url = true
    · by_cases hs : g.format_id ∈ seen
      · simp only [seenAfter, hu, if_true, hs]
        exact ih seen hx (fun p hp => hall p (List.mem_cons_of_mem _ hp))
      · simp only [seenAfter, hu, if_true, hs, if_false]
        refine ih _ ?_ (fun p hp => hall p (List.mem_cons_of_mem _ hp))
        intro hmem
        rcases List.mem_cons.mp hmem with h1 | h1
        · exact hall g (List.mem_cons_self _ _) hu h1.symm
        · exact hx h1
    · simp only [seenAfter, hu]
      exact ih seen hx (fun p hp => hall p (List.mem_cons_of_mem _ hp))

theorem seenAfter_append (l1 l2 : List RawFormat) :
    ∀ seen, seenAfter (l1 ++ l2) seen = seenAfter l2 (seenAfter l1 seen) := by
  induction l1 with
  | nil => intro seen; simp [seenAfter]
  | cons f rest ih =>
    intro seen
    by_cases hu : optStrTruthy f.url = true
    · by_cases hs : f.format_id ∈ seen <;> simp [seenAfter, hu, hs, ih]
    · simp [seenAfter, hu, ih]

theorem self_mem_seenAfter (f : RawFormat) (l : List RawFormat)
    (seen : List (Option String)) (hu : optStrTruthy f.url = true) :
    f.format_id ∈ seenAfter (f :: l) seen := by
  by_cases hs : f.format_id ∈ seen
  · simp only [seenAfter, hu, if_true, hs]
    exact mem_seenAfter l seen hs
  · simp only [seenAfter, hu, if_true, hs, if_false]
    exact mem_seenAfter l _ (List.mem_cons_self _ _)

theorem normalizeLoop_skip (duration : Rat) (g : RawFormat) (l : List RawFormat)
    (seen : List (Option String)) (hs : g.format_id ∈ seen) :
    normalizeLoop duration (g :: l) seen = normalizeLoop duration l seen ∧
      seenAfter (g :: l) seen = seenAfter l seen := by
  by_cases hu : optStrTruthy g.url = true <;>
    simp [normalizeLoop, seenAfter, hu, hs]

/-- A later descriptor `g` that shares the `format_id` of an earlier
URL-bearing descriptor `f` contributes nothing: deleting it leaves the
normalized output unchanged. -/
theorem dup_dropped (duration : Rat) (l1 l2 l3 : List RawFormat) (f g : RawFormat)
    (hf : optStrTruthy f.url = true) (hfg : g.format_id = f.format_id) :
    normalizeFormats duration (l1 ++ f :: (l2 ++ g :: l3)) =
      normalizeFormats duration (l1 ++ f :: (l2 ++ l3)) := by
  have h1 : l1 ++ f :: (l2 ++ g :: l3) = (l1 ++ f :: l2) ++ g :: l3 := by simp
  have h2 : l1 ++ f :: (l2 ++ l3) = (l1 ++ f :: l2) ++ l3 := by simp
  unfold normalizeFormats
  rw [h1, h2, normalizeLoop_append duration (l1 ++ f :: l2) (g :: l3),
    normalizeLoop_append duration (l1 ++ f :: l2) l3]
  have hmem : g.format_id ∈ seenAfter (l1 ++ f :: l2) ([] : List (Option String)) := by
    rw [hfg, seenAfter_append]
    exact self_mem_seenAfter f l2 _ hf
  rw [(normalizeLoop_skip duration g l3 _ hmem).1]

/-- Provenance: every record of the normalized output comes from some
URL-bearing input descriptor, via `mkNormalized` and its classification. -/
theorem mem_normalizeLoop {duration : Rat} :
    ∀ {l : List RawFormat} {seen : List (Option String)} {r : NormalizedFormat},
      r ∈ normalizeLoop duration l seen →
      ∃ f ∈ l, ∃ t,
        classify (pyDictGet f.vcodec "none") (pyDictGet f.acodec "none") = some t ∧
        r = mkNormalized duration f t ∧ optStrTruthy f.url = true := by
  intro l
  induction l with
  | nil => intro seen r h; simp [normalizeLoop] at h
  | cons f rest ih =>
    intro seen r h
    by_cases hu : optStrTruthy f.url = true
    · by_cases hs : f.format_id ∈ seen
      · rw [normalizeLoop] at h
        simp only [hu, if_true, hs] at h
        obtain ⟨f', hf', ht⟩ := ih h
        exact ⟨f', List.mem_cons_of_mem _ hf', ht⟩
      · rw [normalizeLoop] at h
        simp only [hu, if_true, hs, if_false] at h
        cases hcl : classify (pyDictGet f.vcodec "none") (pyDictGet f.acodec "none") with
        | none =>
          rw [hcl] at h
          obtain ⟨f', hf', ht⟩ := ih h
          exact ⟨f', List.mem_cons_of_mem _ hf', ht⟩
        | some t =>
          rw [hcl] at h
          rcases List.mem_cons.mp h with hr | hr
          · exact ⟨f, List.mem_cons_self _ _, t, hcl, hr, hu⟩
          · obtain ⟨f', hf', ht⟩ := ih hr
            exact ⟨f', List.mem_cons_of_mem _ hf', ht⟩
    · rw [normalizeLoop] at h
      simp only [hu] at h
      obtain ⟨f', hf', ht⟩ := ih h
      exact ⟨f', List.mem_cons_of_mem _ hf', ht⟩

theorem fid_notin_of_mem (duration : Rat) :
    ∀ (l : List RawFormat) (seen : List (Option String)) (r : NormalizedFormat),
      r ∈ normalizeLoop duration l seen → r.format_id ∉ seen := by
  intro l
  induction l with
  | nil => intro seen r h; simp [normalizeLoop] at h
  | cons f rest ih =>
    intro seen r h
    by_cases hu : optStrTruthy f.url = true
    · by_cases hs : f.format_id ∈ seen
      · rw [normalizeLoop] at h
        simp only [hu, if_true, hs] at h
        exact ih seen r h
      · rw [normalizeLoop] at h
        simp only [hu, if_true, hs, if_false] at h
        cases hcl : classify (pyDictGet f.vcodec "none") (pyDictGet f.acodec "none") with
        | none =>
          rw [hcl] at h
          intro hmem
          exact ih _ r h (List.mem_cons_of_mem _ hmem)
        | some t =>
          rw [hcl] at h
          rcases List.mem_cons.mp h with hr | hr
          · rw [hr]
            exact hs
          · intro hmem
            exact ih _ r hr (List.mem_cons_of_mem _ hmem)
    · rw [normalizeLoop] at h
      simp only [hu] at h
      exact ih seen r h

/-- Emitted `format_id` values are pairwise distinct. -/
theorem normalizeLoop_fid_pairwise (duration : Rat) :
    ∀ (l : List RawFormat) (seen : List (Option String)),
      (normalizeLoop duration l seen).Pairwise
        (fun r s => r.format_id ≠ s.format_id) := by
  intro l
  induction l with
  | nil => intro seen; simp [normalizeLoop]
  | cons f rest ih =>
    intro seen
    by_cases hu : optStrTruthy f.url = true
    · by_cases hs : f.format_id ∈ seen
      · rw [normalizeLoop]
        simp only [hu, if_true, hs]
        exact ih seen
      · rw [normalizeLoop]
        simp only [hu, if_true, hs, if_false]
        cases hcl : classify (pyDictGet f.vcodec "none") (pyDictGet f.acodec "none") with
        | none => exact ih _
        | some t =>
          refine List.Pairwise.cons ?_ (ih _)
          intro s hsmem
          have hnot := fid_notin_of_mem duration rest _ s hsmem
          intro heq
          exact hnot (heq ▸ List.mem_cons_self _ _)
    · rw [normalizeLoop]
      simp only [hu]
      exact ih seen

/-! ### Claim theorems -/

/-- C2: the output formats sequence is sorted by the four-key contract —
combined audio+video records (type `video` with non-null `acodec`)
precede all others; among equal combined-status, height descending
(absent = 0), then fps descending (absent = 0), then derived filesize
descending (absent = 0); the sort is a permutation of the normalized
records, total and deterministic, and stable: records tied on all four
keys keep their relative input order. -/
theorem sort_contract (duration : Rat) (raw : List RawFormat)
    (k : Int × Int × Int × Int) :
    ((extractFormats duration raw).Pairwise
        (fun a b => isCombined b = true → isCombined a = true)) ∧
    ((extractFormats duration raw).Pairwise
        (fun a b => isCombined a = isCombined b →
          b.height.getD 0 ≤ a.height.getD 0)) ∧
    ((extractFormats duration raw).Pairwise
        (fun a b => isCombined a = isCombined b →
          a.height.getD 0 = b.height.getD 0 → b.fps.getD 0 ≤ a.fps.getD 0)) ∧
    ((extractFormats duration raw).Pairwise
        (fun a b => isCombined a = isCombined b →
          a.height.getD 0 = b.height.getD 0 → a.fps.getD 0 = b.fps.getD 0 →
          b.filesize.getD 0 ≤ a.filesize.getD 0)) ∧
    ((extractFormats duration raw).Perm (normalizeFormats duration raw)) ∧
    ((extractFormats duration raw).filter (fun x => decide (sortKey x = k)) =
      (normalizeFormats duration raw).filter (fun x => decide (sortKey x = k))) := by
  have hsorted :=
    @List.sorted_mergeSort NormalizedFormat keyLE keyLE_trans keyLE_total
      (normalizeFormats duration raw)
  have hperm :
      List.Perm ((normalizeFormats duration raw).mergeSort keyLE)
        (normalizeFormats duration raw) :=
    List.mergeSort_perm (normalizeFormats duration raw) keyLE
  refine ⟨hsorted.imp (fun h => (keyLE_imp h).1),
    hsorted.imp (fun h => (keyLE_imp h).2.1),
    hsorted.imp (fun h => (keyLE_imp h).2.2.1),
    hsorted.imp (fun h => (keyLE_imp h).2.2.2),
    hperm, ?_⟩
  have hall : ∀ x ∈ (normalizeFormats duration raw).filter
      (fun x => decide (sortKey x = k)), sortKey x = k := by
    intro x hx
    have := (List.mem_filter.mp hx).2
    simpa using this
  have hpair : ((normalizeFormats duration raw).filter
      (fun x => decide (sortKey x = k))).Pairwise
        (fun a b => keyLE a b = true) := by
    apply List.pairwise_of_forall_mem_list
    intro a ha b hb
    exact keyLE_of_sortKey_eq ((hall a ha).trans (hall b hb).symm)
  have hsub0 : List.Sublist ((normalizeFormats duration raw).filter
      (fun x => decide (sortKey x = k))) (normalizeFormats duration raw) :=
    List.filter_sublist _
  have hsub : List.Sublist ((normalizeFormats duration raw).filter
      (fun x => decide (sortKey x = k)))
        ((normalizeFormats duration raw).mergeSort keyLE) :=
    @List.sublist_mergeSort NormalizedFormat keyLE _ keyLE_trans keyLE_total
      _ hpair hsub0
  have hsub2 : List.Sublist ((normalizeFormats duration raw).filter
      (fun x => decide (sortKey x = k)))
        (((normalizeFormats duration raw).mergeSort keyLE).filter
          (fun x => decide (sortKey x = k))) := by
    have hidem : ((normalizeFormats duration raw).filter
        (fun x => decide (sortKey x = k))).filter
          (fun x => decide (sortKey x = k)) =
        (normalizeFormats duration raw).filter
          (fun x => decide (sortKey x = k)) := by
      apply List.filter_eq_self.mpr
      intro a ha
      simpa using hall a ha
    have := hsub.filter (fun x => decide (sortKey x = k))
    rwa [hidem] at this
  have hlen :
      (((normalizeFormats duration raw).mergeSort keyLE).filter
        (fun x => decide (sortKey x = k))).length =
      ((normalizeFormats duration raw).filter
        (fun x => decide (sortKey x = k))).length :=
    (hperm.filter _).length_eq
  exact (hsub2.eq_of_length hlen.symm).symm

theorem mem_extractFormats {duration : Rat} {raw : List RawFormat}
    {r : NormalizedFormat} (hr : r ∈ extractFormats duration raw) :
    r ∈ normalizeFormats duration raw :=
  (List.mergeSort_perm (normalizeFormats duration raw) keyLE).mem_iff.mp hr

/-- C1 (amended): for every emitted record, the derived filesize follows
the fallback chain in which the first truthy (non-null and non-zero)
value wins: the exact filesize field when truthy; otherwise, when `tbr`
and the duration are truthy, `int(tbr * 1000 * duration / 8)` unless that
value is itself zero; otherwise the approximate filesize field (possibly
null).  In particular a descriptor with no exact or approximate filesize,
`tbr = 1000` and duration 8 yields filesize 1,000,000. -/
theorem filesize_fallback_chain (duration : Rat) (raw : List RawFormat)
    (r : NormalizedFormat) (hr : r ∈ extractFormats duration raw) :
    ∃ f ∈ raw, r.filesize = deriveFilesize duration f ∧
      (optIntTruthy f.filesize = true → r.filesize = f.filesize) ∧
      (optIntTruthy f.filesize = false → optRatTruthy f.tbr = true →
        duration ≠ 0 →
        r.filesize = (if pyTrunc (f.tbr.getD 0 * 1000 * duration / 8) ≠ 0
          then some (pyTrunc (f.tbr.getD 0 * 1000 * duration / 8))
          else f.filesize_approx)) ∧
      (optIntTruthy f.filesize = false →
        (optRatTruthy f.tbr = false ∨ duration = 0) →
        r.filesize = f.filesize_approx) := by
  obtain ⟨f, hf, t, hcl, heq, hu⟩ := mem_normalizeLoop (mem_extractFormats hr)
  have hfs : r.filesize = deriveFilesize duration f := by
    rw [heq]; rfl
  refine ⟨f, hf, hfs, ?_, ?_, ?_⟩
  · intro h1
    rw [hfs]
    simp [deriveFilesize, h1]
  · intro h1 h2 h3
    rw [hfs]
    have hbne : (duration != 0) = true := by simpa using h3
    simp only [deriveFilesize, h1, h2, hbne, Bool.not_false, Bool.true_and,
      Bool.and_true, Bool.and_self, if_true]
    by_cases hc : pyTrunc (f.tbr.getD 0 * 1000 * duration / 8) = 0
    · simp [optIntTruthy, hc]
    · simp [optIntTruthy, hc]
  · intro h1 h2
    rw [hfs]
    rcases h2 with h2 | h2
    · simp [deriveFilesize, h1, h2]
    · have hbne : (duration != 0) = false := by simp [h2]
      simp [deriveFilesize, h1, hbne]

unseal Rat.mul Rat.add Rat.sub Rat.inv Rat.ofScientific List.merge List.mergeSort in
/-- C1 witness: the amended chain applied to a concrete descriptor with
no exact or approximate filesize, `tbr = 1000` and duration 8; the
derived filesize is 1,000,000 bytes. -/
theorem filesize_fallback_chain_witness :
    (∃ f ∈ [exTbrOnly], recTbrOnly.filesize = deriveFilesize 8 f ∧
      (optIntTruthy f.filesize = true → recTbrOnly.filesize = f.filesize) ∧
      (optIntTruthy f.filesize = false → optRatTruthy f.tbr = true →
        (8 : Rat) ≠ 0 →
        recTbrOnly.filesize = (if pyTrunc (f.tbr.getD 0 * 1000 * 8 / 8) ≠ 0
          then some (pyTrunc (f.tbr.getD 0 * 1000 * 8 / 8))
          else f.filesize_approx)) ∧
      (optIntTruthy f.filesize = false →
        (optRatTruthy f.tbr = false ∨ (8 : Rat) = 0) →
        recTbrOnly.filesize = f.filesize_approx)) ∧
    recTbrOnly.filesize = some 1000000 :=
  ⟨filesize_fallback_chain 8 [exTbrOnly] recTbrOnly (by decide), by decide⟩

unseal Rat.mul Rat.add Rat.sub Rat.inv Rat.ofScientific in
/-- C1 counterexample: a descriptor whose exact filesize is present but
zero.  The claim's chain ("first non-null wins") yields 0, but the code
treats the zero as absent and computes 1,000,000 from `tbr` and the
duration. -/
theorem filesize_fallback_chain_cex :
    cexZeroFilesize.filesize = some 0 ∧
    specFilesize 8 cexZeroFilesize = some 0 ∧
    (normalizeFormats 8 [cexZeroFilesize]).map (fun r => r.filesize) =
      [some 1000000] :=
  ⟨by decide, by decide, by decide⟩

/-- C5 (amended): for every emitted record, the quality label is derived
as: if height is present and non-zero, `"{height}p"` with the frame rate
appended directly exactly when it exceeds 30; else if the average bitrate
is present and non-zero, `"{int(abr)}kbps"` (truncation toward zero);
else the descriptor's note when non-empty, or failing that its format
identifier. -/
theorem quality_label (duration : Rat) (raw : List RawFormat)
    (r : NormalizedFormat) (hr : r ∈ extractFormats duration raw) :
    ∃ f ∈ raw, r.quality = buildQuality f ∧ r.height = f.height ∧
      r.fps = f.fps ∧ r.abr = f.abr ∧
      (∀ h, f.height = some h → h ≠ 0 →
        r.quality = some (toString h ++ "p" ++ fpsSuffix f.fps)) ∧
      (∀ n, f.fps = some n → 30 < n → fpsSuffix f.fps = toString n) ∧
      (∀ n, f.fps = some n → n ≤ 30 → fpsSuffix f.fps = "") ∧
      (f.fps = none → fpsSuffix f.fps = "") ∧
      (optIntTruthy f.height = false → ∀ q, f.abr = some q → q ≠ 0 →
        r.quality = some (toString (pyTrunc q) ++ "kbps")) ∧
      (optIntTruthy f.height = false → optRatTruthy f.abr = false →
        r.quality = (if optStrTruthy f.format_note then f.format_note
          else f.format_id)) := by
  obtain ⟨f, hf, t, hcl, heq, hu⟩ := mem_normalizeLoop (mem_extractFormats hr)
  have hq : r.quality = buildQuality f := by rw [heq]; rfl
  have hh : r.height = f.height := by rw [heq]; rfl
  have hfp : r.fps = f.fps := by rw [heq]; rfl
  have hab : r.abr = f.abr := by rw [heq]; rfl
  refine ⟨f, hf, hq, hh, hfp, hab, ?_, ?_, ?_, ?_, ?_, ?_⟩
  · intro h hsome hne
    rw [hq]
    have ht : optIntTruthy f.height = true := by simp [optIntTruthy, hsome, hne]
    unfold buildQuality
    rw [if_pos ht, hsome]
    rfl
  · intro n hsome hgt
    have hne : n ≠ 0 := by omega
    simp [fpsSuffix, hsome, hne, hgt]
  · intro n hsome hle
    have hng : ¬ (30 < n) := by omega
    simp [fpsSuffix, hsome, hng]
  · intro hnone
    simp [fpsSuffix, hnone]
  · intro hh0 q hq0 hqne
    rw [hq]
    have ha : optRatTruthy f.abr = true := by simp [optRatTruthy, hq0, hqne]
    have hn1 : ¬ (optIntTruthy f.height = true) := by simp [hh0]
    unfold buildQuality
    rw [if_neg hn1, if_pos ha, hq0]
    rfl
  · intro hh0 ha0
    rw [hq]
    have hn1 : ¬ (optIntTruthy f.height = true) := by simp [hh0]
    have hn2 : ¬ (optRatTruthy f.abr = true) := by simp [ha0]
    unfold buildQuality
    rw [if_neg hn1, if_neg hn2]

unseal Rat.mul Rat.add Rat.sub Rat.inv Rat.ofScientific List.merge List.mergeSort in
/-- C5 witness: the amended label rules applied to a concrete 1080p60
video descriptor; its label is `"1080p60"`. -/
theorem quality_label_witness :
    (∃ f ∈ [exVideoOnly], recVideoOnly.quality = buildQuality f ∧
      recVideoOnly.height = f.height ∧ recVideoOnly.fps = f.fps ∧
      recVideoOnly.abr = f.abr ∧
      (∀ h, f.height = some h → h ≠ 0 →
        recVideoOnly.quality = some (toString h ++ "p" ++ fpsSuffix f.fps)) ∧
      (∀ n, f.fps = some n → 30 < n → fpsSuffix f.fps = toString n) ∧
      (∀ n, f.fps = some n → n ≤ 30 → fpsSuffix f.fps = "") ∧
      (f.fps = none → fpsSuffix f.fps = "") ∧
      (optIntTruthy f.height = false → ∀ q, f.abr = some q → q ≠ 0 →
        recVideoOnly.quality = some (toString (pyTrunc q) ++ "kbps")) ∧
      (optIntTruthy f.height = false → optRatTruthy f.abr = false →
        recVideoOnly.quality = (if optStrTruthy f.format_note then f.format_note
          else f.format_id))) ∧
    recVideoOnly.quality = some "1080p60" :=
  ⟨quality_label 0 [exVideoOnly] recVideoOnly (by decide), by decide⟩

unseal Rat.mul Rat.add Rat.sub Rat.inv Rat.ofScientific in
/-- C5 counterexample: a descriptor whose height is present but zero,
with `abr = 128.7`.  The claim's rule ("if height is present") yields
`"0p"`, but the code treats the zero height as absent and emits
`"128kbps"`. -/
theorem quality_label_cex :
    cexZeroHeight.height = some 0 ∧
    specQuality cexZeroHeight = some "0p" ∧
    (normalizeFormats 0 [cexZeroHeight]).map (fun r => r.quality) =
      [some "128kbps"] :=
  ⟨by decide, by decide, by decide⟩

/-- C3 (amended): within one result the emitted `format_id` values are
pairwise distinct; and whenever a URL-bearing descriptor `f` appears,
every later descriptor sharing `f`'s `format_id` is silently dropped —
deleting it leaves the output unchanged — so at most the first
URL-bearing holder of a `format_id` survives, with insertion order
preserved for first occurrences. -/
theorem dedup_first_wins (duration : Rat) (raw l1 l2 l3 : List RawFormat)
    (f g : RawFormat) (hf : optStrTruthy f.url = true)
    (hfg : g.format_id = f.format_id) :
    ((extractFormats duration raw).Pairwise
      (fun r s => r.format_id ≠ s.format_id)) ∧
    extractFormats duration (l1 ++ f :: (l2 ++ g :: l3)) =
      extractFormats duration (l1 ++ f :: (l2 ++ l3)) := by
  constructor
  · have hp := normalizeLoop_fid_pairwise duration raw []
    have hperm :
        List.Perm ((normalizeFormats duration raw).mergeSort keyLE)
          (normalizeFormats duration raw) :=
      List.mergeSort_perm (normalizeFormats duration raw) keyLE
    exact (hperm.pairwise_iff (fun h => Ne.symm h)).mpr hp
  · unfold extractFormats
    rw [dup_dropped duration l1 l2 l3 f g hf hfg]

unseal Rat.mul Rat.add Rat.sub Rat.inv Rat.ofScientific List.merge List.mergeSort in
/-- C3 witness: two URL-bearing descriptors sharing `format_id "w"`; the
emitted identifiers are distinct and deleting the second descriptor
leaves the output unchanged. -/
theorem dedup_first_wins_witness :
    ((extractFormats 0 [exDupFirst, exDupSecond]).Pairwise
      (fun r s => r.format_id ≠ s.format_id)) ∧
    extractFormats 0 ([] ++ exDupFirst :: ([] ++ exDupSecond :: [])) =
      extractFormats 0 ([] ++ exDupFirst :: ([] ++ [])) :=
  dedup_first_wins 0 [exDupFirst, exDupSecond] [] [] []
    exDupFirst exDupSecond (by decide) (by decide)

/-- C3 counterexample: two raw descriptors share `format_id "a"`; the
first lacks a URL, so it is filtered out before deduplication and never
enters the seen set — the *later* duplicate survives normalization,
contradicting "only the first one in input order survives". -/
theorem dedup_first_wins_cex :
    cexDupNoUrl.format_id = cexDupWithUrl.format_id ∧
    (normalizeFormats 0 [cexDupNoUrl, cexDupWithUrl]).map (fun r => r.url) =
      ["https://cdn/a2"] :=
  ⟨by decide, by decide⟩

/-- C4: for a URL-bearing, non-duplicate descriptor — a non-sentinel
video codec yields a `video` record whether or not an audio codec is
present; a sentinel video codec with non-sentinel audio codec yields an
`audio` record; both sentinel drops the descriptor entirely; and in the
emitted record a codec equal to the literal `"none"` becomes null while
any other codec value passes through unchanged. -/
theorem classify_and_sentinel (duration : Rat) (f : RawFormat)
    (rest : List RawFormat) (seen : List (Option String))
    (hurl : optStrTruthy f.url = true) (hdup : f.format_id ∉ seen) :
    (pyDictGet f.vcodec "none" ≠ some "none" →
      normalizeLoop duration (f :: rest) seen =
        mkNormalized duration f "video" ::
          normalizeLoop duration rest (f.format_id :: seen) ∧
      (mkNormalized duration f "video").type = "video" ∧
      (mkNormalized duration f "video").vcodec = pyDictGet f.vcodec "none" ∧
      (mkNormalized duration f "video").acodec =
        (if pyDictGet f.acodec "none" = some "none" then none
         else pyDictGet f.acodec "none")) ∧
    (pyDictGet f.vcodec "none" = some "none" →
      pyDictGet f.acodec "none" ≠ some "none" →
      normalizeLoop duration (f :: rest) seen =
        mkNormalized duration f "audio" ::
          normalizeLoop duration rest (f.format_id :: seen) ∧
      (mkNormalized duration f "audio").type = "audio" ∧
      (mkNormalized duration f "audio").vcodec = none ∧
      (mkNormalized duration f "audio").acodec = pyDictGet f.acodec "none") ∧
    (pyDictGet f.vcodec "none" = some "none" →
      pyDictGet f.acodec "none" = some "none" →
      normalizeLoop duration (f :: rest) seen =
        normalizeLoop duration rest (f.format_id :: seen)) := by
  refine ⟨?_, ?_, ?_⟩
  · intro hv
    have hcl : classify (pyDictGet f.vcodec "none") (pyDictGet f.acodec "none") =
        some "video" := by
      by_cases ha : pyDictGet f.acodec "none" = some "none" <;>
        simp [classify, hv, ha]
    refine ⟨?_, rfl, ?_, rfl⟩
    · rw [normalizeLoop]
      simp [hurl, hdup, hcl]
    · simp [mkNormalized, hv]
  · intro hv ha
    have hcl : classify (pyDictGet f.vcodec "none") (pyDictGet f.acodec "none") =
        some "audio" := by
      simp [classify, hv, ha]
    refine ⟨?_, rfl, ?_, ?_⟩
    · rw [normalizeLoop]
      simp [hurl, hdup, hcl]
    · simp [mkNormalized, hv]
    · simp [mkNormalized, ha]
  · intro hv ha
    have hcl : classify (pyDictGet f.vcodec "none") (pyDictGet f.acodec "none") =
        none := by
      simp [classify, hv, ha]
    rw [normalizeLoop]
    simp [hurl, hdup, hcl]

/-- C4 witness: a descriptor with vcodec sentinel `"none"` and acodec
`"opus"` yields an audio record with vcodec null and acodec `"opus"`. -/
theorem classify_and_sentinel_witness :
    normalizeLoop 0 [exAudio] [] =
      mkNormalized 0 exAudio "audio" :: normalizeLoop 0 [] [exAudio.format_id] ∧
    (mkNormalized 0 exAudio "audio").type = "audio" ∧
    (mkNormalized 0 exAudio "audio").vcodec = none ∧
    (mkNormalized 0 exAudio "audio").acodec = some "opus" := by
  have h := (classify_and_sentinel 0 exAudio [] [] (by decide)
    (by decide)).2.1 (by decide) (by decide)
  exact ⟨h.1, h.2.1, h.2.2.1, by decide⟩

/-- C10 (amended): an absent `format_id` participates in deduplication
like any other value — every later URL-bearing identifier-less
descriptor is dropped as a duplicate (deleting it leaves the output
unchanged) even if its other fields differ, and the first URL-bearing
identifier-less descriptor of the input (after any prefix `l0` whose
URL-bearing descriptors all carry identifiers) is emitted with
`format_id` null exactly when it carries a non-sentinel codec. -/
theorem anonymous_fid_dedup (duration : Rat)
    (l0 l1 l2 l3 rest : List RawFormat)
    (f g : RawFormat) (hf : optStrTruthy f.url = true)
    (hfid : f.format_id = none) (hg : optStrTruthy g.url = true)
    (hgid : g.format_id = none) :
    (normalizeFormats duration (l1 ++ f :: (l2 ++ g :: l3)) =
      normalizeFormats duration (l1 ++ f :: (l2 ++ l3))) ∧
    ((∀ p ∈ l0, optStrTruthy p.url = true → p.format_id ≠ none) →
      ∀ t, classify (pyDictGet f.vcodec "none") (pyDictGet f.acodec "none") =
        some t →
      normalizeFormats duration (l0 ++ f :: rest) =
        normalizeLoop duration l0 [] ++
          (mkNormalized duration f t ::
            normalizeLoop duration rest (none :: seenAfter l0 [])) ∧
      (mkNormalized duration f t).format_id = none) := by
  constructor
  · exact dup_dropped duration l1 l2 l3 f g hf (hgid.trans hfid.symm)
  · intro hl0 t hcl
    constructor
    · unfold normalizeFormats
      rw [normalizeLoop_append]
      have hnm : f.format_id ∉ seenAfter l0 ([] : List (Option String)) := by
        rw [hfid]
        exact notin_seenAfter l0 [] (by simp) hl0
      congr 1
      rw [normalizeLoop]
      simp only [hf, if_true, hnm, if_false, hcl]
      rw [hfid]
    · simp [mkNormalized, hfid]

/-- C10 witness: two URL-bearing identifier-less descriptors; deleting
the second leaves the output unchanged, and behind an identifier-bearing
combined descriptor the first identifier-less descriptor (which carries
a video codec) is emitted with `format_id` null. -/
theorem anonymous_fid_dedup_witness :
    normalizeFormats 0 [cexNoFidVideo, cexNoFidNoCodec] =
      normalizeFormats 0 [cexNoFidVideo] ∧
    normalizeFormats 0 [exCombined, cexNoFidVideo] =
      normalizeLoop 0 [exCombined] [] ++
        (mkNormalized 0 cexNoFidVideo "video" ::
          normalizeLoop 0 [] (none :: seenAfter [exCombined] [])) ∧
    (mkNormalized 0 cexNoFidVideo "video").format_id = none := by
  have h := anonymous_fid_dedup 0 [exCombined] [] [] [] []
    cexNoFidVideo cexNoFidNoCodec
    (by decide) (by decide) (by decide) (by decide)
  have h2 := h.2 (by decide) "video" (by decide)
  exact ⟨h.1, h2.1, h2.2⟩

/-- C10 counterexample: the first URL-bearing identifier-less descriptor
has both codecs sentinel, so it is dropped by classification — yet it
still poisons the seen set, so the later identifier-less descriptor
(whose fields differ and which would classify as video) is also dropped;
nothing is emitted, contradicting "the first identifier-less descriptor
is emitted with format_id null". -/
theorem anonymous_fid_dedup_cex :
    optStrTruthy cexNoFidNoCodec.url = true ∧
    optStrTruthy cexNoFidVideo.url = true ∧
    cexNoFidNoCodec.format_id = none ∧
    cexNoFidVideo.format_id = none ∧
    normalizeFormats 0 [cexNoFidNoCodec, cexNoFidVideo] = [] :=
  ⟨by decide, by decide, by decide, by decide, by decide⟩

unseal Rat.mul Rat.add Rat.sub Rat.inv Rat.ofScientific List.merge List.mergeSort in
/-- C2 witness: the sort contract applied to a concrete mixed input; the
combined 720p record sorts before the 1080p video-only record, which
sorts before the audio record. -/
theorem sort_contract_witness :
    (extractFormats 0 [exAudio, exCombined, exVideoOnly]).Perm
      (normalizeFormats 0 [exAudio, exCombined, exVideoOnly]) ∧
    (extractFormats 0 [exAudio, exCombined, exVideoOnly]).map
      (fun r => r.format_id) = [some "22", some "137", some "251"] :=
  ⟨(sort_contract 0 [exAudio, exCombined, exVideoOnly]
      (0, 0, 0, 0)).2.2.2.2.1, by decide⟩

/-- C6: structured cookie input keeps exactly the entries whose domain
contains `"youtube.com"` or `"google.com"`; an empty filtered set
produces no cookie configuration, a non-empty one produces the converted
temp-file content; a surviving entry's domain is dot-prefixed when not
already dot-prefixed, the flag is TRUE exactly when the adjusted domain
starts with a dot, path defaults to `"/"`, secure comes from the entry's
flag, expires is the truncated timestamp, and entries lacking a name or
value emit no record. -/
theorem cookie_adapter (cs : List CookieEntry) (c : CookieEntry) :
    (c ∈ filterYtCookies cs ↔ c ∈ cs ∧
      (pyInStr "youtube.com" (c.domain.getD "") = true ∨
       pyInStr "google.com" (c.domain.getD "") = true)) ∧
    (filterYtCookies cs = [] →
      setupCookies (CookieSource.jsonContent cs) = none) ∧
    (filterYtCookies cs ≠ [] →
      setupCookies (CookieSource.jsonContent cs) =
        some (CookieConfig.fromTempFile (String.intercalate "\n"
          ("# Netscape HTTP Cookie File" ::
            (filterYtCookies cs).filterMap cookieLine)))) ∧
    (isYtCookie c = true → strStartsWith (c.domain.getD "") "." = false →
      adjustedDomain c = "." ++ c.domain.getD "") ∧
    (strStartsWith (c.domain.getD "") "." = true →
      adjustedDomain c = c.domain.getD "") ∧
    (domainFlag c =
      if strStartsWith (adjustedDomain c) "." then "TRUE" else "FALSE") ∧
    (optStrTruthy c.name = true → optStrTruthy c.value = true →
      cookieLine c = some (adjustedDomain c ++ "\t" ++ domainFlag c ++ "\t" ++
        c.path.getD "/" ++ "\t" ++ secureFlag c ++ "\t" ++
        toString (pyTrunc (c.expirationDate.getD 0)) ++ "\t" ++
        c.name.getD "" ++ "\t" ++ c.value.getD "")) ∧
    ((optStrTruthy c.name = false ∨ optStrTruthy c.value = false) →
      cookieLine c = none) := by
  refine ⟨?_, ?_, ?_, ?_, ?_, rfl, ?_, ?_⟩
  · simp [filterYtCookies, List.mem_filter, isYtCookie]
  · intro h
    simp [setupCookies, h]
  · intro h
    have hie : (filterYtCookies cs).isEmpty = false := by
      simpa [List.isEmpty_iff] using h
    simp [setupCookies, hie, parse_json_cookies_to_netscape]
  · intro hyt hns
    have hd : ¬ (c.domain.getD "" = "") := by
      intro hdom
      unfold isYtCookie at hyt
      rw [hdom] at hyt
      exact absurd hyt (by decide)
    have hbne : (c.domain.getD "" != "") = true := by simpa using hd
    unfold adjustedDomain
    simp [hbne, hns]
  · intro hns
    unfold adjustedDomain
    simp [hns]
  · intro hn hv
    simp [cookieLine, hn, hv, expiresField]
  · intro h
    rcases h with h | h <;> simp [cookieLine, h]

unseal Rat.mul Rat.add Rat.sub Rat.inv Rat.ofScientific in
/-- C6 witness: an entry with domain `"youtube.com"` (no leading dot)
survives the filter and yields domain `".youtube.com"` with flag TRUE
and the expected flat record; an `"example.com"` entry is excluded. -/
theorem cookie_adapter_witness :
    adjustedDomain exYtEntry = ".youtube.com" ∧
    domainFlag exYtEntry = "TRUE" ∧
    filterYtCookies [exYtEntry, exOtherEntry] = [exYtEntry] ∧
    cookieLine exYtEntry =
      some ".youtube.com\tTRUE\t/\tTRUE\t1700000000\tSID\tabc" := by
  have h := cookie_adapter [exYtEntry, exOtherEntry] exYtEntry
  refine ⟨(h.2.2.2.1 (by decide) (by decide)).trans (by decide), by decide,
    by decide, ?_⟩
  exact (h.2.2.2.2.2.2.1 (by decide) (by decide)).trans (by decide)

theorem extract_result_eq (src : CookieSource) (call : ExtCallOutcome)
    (er : Bool) :
    (extract src call er).result =
      (match call with
       | ExtCallOutcome.ok info => ExtractionResult.success (shapeData info)
       | ExtCallOutcome.downloadError m => ExtractionResult.failure m
       | ExtCallOutcome.genericError m => ExtractionResult.failure m) := rfl

/-- C7: a missing URL argument yields the fixed `"URL required"` failure
document, exit code 1, and no extraction attempt, regardless of the
external call's behavior; an extraction exception (download-specific or
generic) yields its message verbatim as the failure document with exit
code 1; success yields exactly one success document and exit code 0. -/
theorem exit_status (argv : List String) (src : CookieSource)
    (call : ExtCallOutcome) :
    (argv.length < 2 →
      mainProgram argv src call =
        ([ExtractionResult.failure "URL required"], 1, false)) ∧
    (2 ≤ argv.length →
      (∀ m, call = ExtCallOutcome.downloadError m →
        mainProgram argv src call = ([ExtractionResult.failure m], 1, true)) ∧
      (∀ m, call = ExtCallOutcome.genericError m →
        mainProgram argv src call = ([ExtractionResult.failure m], 1, true)) ∧
      (∀ info, call = ExtCallOutcome.ok info →
        mainProgram argv src call =
          ([ExtractionResult.success (shapeData info)], 0, true))) := by
  constructor
  · intro h
    unfold mainProgram
    simp [h]
  · intro h
    have h2 : ¬ (argv.length < 2) := by omega
    refine ⟨?_, ?_, ?_⟩ <;> intro m hm <;> subst hm <;>
      unfold mainProgram <;> simp [h2, extract_result_eq]

/-- C7 witness: with no URL argument the fixed usage failure and exit 1
are produced without attempting extraction; with a URL and a raising
external call, the raised message is returned verbatim with exit 1. -/
theorem exit_status_witness :
    mainProgram ["prog"] CookieSource.noFile
      (ExtCallOutcome.downloadError "boom") =
      ([ExtractionResult.failure "URL required"], 1, false) ∧
    mainProgram ["prog", "https://y"] CookieSource.noFile
      (ExtCallOutcome.downloadError "boom") =
      ([ExtractionResult.failure "boom"], 1, true) := by
  constructor
  · exact (exit_status ["prog"] CookieSource.noFile
      (ExtCallOutcome.downloadError "boom")).1 (by decide)
  · exact ((exit_status ["prog", "https://y"] CookieSource.noFile
      (ExtCallOutcome.downloadError "boom")).2 (by decide)).1 "boom" rfl

/-- C8: every failure in the cookie-handling step (read error, malformed
JSON, or any other exception) is swallowed: no cookie configuration is
produced and the whole run — printed document, exit code, extraction
attempt — is identical to a run with no cookie file at all. -/
theorem cookie_errors_swallowed (argv : List String) (call : ExtCallOutcome) :
    setupCookies CookieSource.readError = none ∧
    setupCookies CookieSource.malformedJson = none ∧
    setupCookies CookieSource.otherCookieFailure = none ∧
    mainProgram argv CookieSource.readError call =
      mainProgram argv CookieSource.noFile call ∧
    mainProgram argv CookieSource.malformedJson call =
      mainProgram argv CookieSource.noFile call ∧
    mainProgram argv CookieSource.otherCookieFailure call =
      mainProgram argv CookieSource.noFile call :=
  ⟨rfl, rfl, rfl, rfl, rfl, rfl⟩

/-- C8 witness: a cookie read failure leaves the run identical to an
unauthenticated run. -/
theorem cookie_errors_swallowed_witness :
    setupCookies CookieSource.readError = none ∧
    mainProgram ["prog", "https://y"] CookieSource.readError
      (ExtCallOutcome.downloadError "boom") =
      mainProgram ["prog", "https://y"] CookieSource.noFile
      (ExtCallOutcome.downloadError "boom") :=
  ⟨(cookie_errors_swallowed ["prog", "https://y"]
      (ExtCallOutcome.downloadError "boom")).1,
   (cookie_errors_swallowed ["prog", "https://y"]
      (ExtCallOutcome.downloadError "boom")).2.2.2.1⟩

/-- C9: whenever structured cookie input with surviving entries creates a
temporary cookie file, the file is gone after the run on every exit path
of the extraction call (success, download error, generic error); cleanup
is attempted whenever the file still exists, and a temp file already
missing at cleanup time does not change the result. -/
theorem temp_file_cleanup (src : CookieSource) (call : ExtCallOutcome)
    (externallyRemoved : Bool) :
    (∀ cs, src = CookieSource.jsonContent cs → filterYtCookies cs ≠ [] →
      (extract src call externallyRemoved).tempCreated = true) ∧
    (extract src call externallyRemoved).tempOnDiskAfter = false ∧
    ((extract src call externallyRemoved).tempCreated = true →
      externallyRemoved = false →
      (extract src call externallyRemoved).cleanupAttempted = true) ∧
    (extract src call true).result = (extract src call externallyRemoved).result := by
  refine ⟨?_, ?_, ?_, rfl⟩
  · intro cs hsrc hne
    subst hsrc
    have hie : (filterYtCookies cs).isEmpty = false := by
      simpa [List.isEmpty_iff] using hne
    simp [extract, setupCookies, hie]
  · cases hc : setupCookies src with
    | none => simp [extract, hc]
    | some cfg => cases cfg <;> cases externallyRemoved <;> simp [extract, hc]
  · intro h1 h2
    subst h2
    cases hc : setupCookies src with
    | none => simp [extract, hc] at h1
    | some cfg => cases cfg <;> simp [extract, hc] at h1 ⊢

/-- C9 witness: a structured cookie source with one surviving entry
creates the temp file, and after a raising extraction call the file is
no longer on disk. -/
theorem temp_file_cleanup_witness :
    (extract (CookieSource.jsonContent [exYtEntry])
      (ExtCallOutcome.downloadError "boom") false).tempCreated = true ∧
    (extract (CookieSource.jsonContent [exYtEntry])
      (ExtCallOutcome.downloadError "boom") false).tempOnDiskAfter = false := by
  have h := temp_file_cleanup (CookieSource.jsonContent [exYtEntry])
    (ExtCallOutcome.downloadError "boom") false
  exact ⟨h.1 [exYtEntry] rfl (by decide), h.2.1⟩
